import Mathlib

/-!
Verification of the batching/chunking core of the CelbuxHelpers library
(`WriteToDatastore` / `sendRequest` in `celbuxhelpers.go`), together with the
base64 pack/unpack pair (`Encrypt` / `Decrypt`).

The Go code is embedded shallowly:
  * an entity is an opaque byte blob, modelled as a `List Nat` of its bytes;
  * the environment variable `GOOGLE_CLOUD_PROJECT` is passed explicitly as a
    `String` (the empty string models "unset", exactly the check in the Go code);
  * the outcome of each outbound `client.Do` HTTP call is an oracle
    `doOk : Nat → Bool` indexed by the number of HTTP calls made so far;
  * `json.Marshal` and `http.NewRequest` always succeed on byte-blob payloads
    and are therefore modelled as total;
  * a run returns the ordered list of HTTP calls attempted (each with its
    payload) and the function's `error` return value.
-/

namespace Celbux

/-- An entity: an opaque byte blob (`[]byte` in the Go code). -/
abbrev Entity := List Nat

/-- Errors surfaced by the library: the gRPC NotFound status returned by
`GetProjectID`, and a transport error from the k-th `client.Do` call. -/
inductive GoError where
  | notFound (msg : String)
  | transport (k : Nat)
  deriving DecidableEq, Repr

/-- `LogError` reports the error to the error client (a side effect outside
this model) and returns its argument unchanged, exactly as in the Go code. -/
def LogError (e : GoError) : GoError := e

/-- `QueueServiceRequest`: a kind tag plus the entity slice, as in the source. -/
structure QueueServiceRequest where
  Kind : String
  Entities : List Entity
  deriving DecidableEq, Repr

/-- `GetProjectID` reads `GOOGLE_CLOUD_PROJECT` (here: the explicit `env`
argument, `""` meaning unset) and fails with a NotFound status when unset. -/
def GetProjectID (env : String) : Except GoError String :=
  if env = "" then
    .error (.notFound "env var GOOGLE_CLOUD_PROJECT must be set")
  else
    .ok env

/-- `sendRequest`: obtains the project id, marshals the payload, builds the
HTTP PUT and performs it.  The returned list records the HTTP calls actually
performed by this invocation (empty when `GetProjectID` fails, a single
attempted call otherwise — also when the transport reports failure). -/
def sendRequest (env : String) (doOk : Nat → Bool) (k : Nat)
    (data : QueueServiceRequest) : Except GoError Unit × List QueueServiceRequest :=
  match GetProjectID env with
  | .error e => (.error (LogError e), [])
  | .ok _ =>
      if doOk k then (.ok (), [data]) else (.error (LogError (.transport k)), [data])

/-- Result of one `WriteToDatastore` invocation: the HTTP calls attempted, in
order, and the returned error value. -/
structure DispatchResult where
  calls : List QueueServiceRequest
  result : Except GoError Unit
  deriving Repr

/-- The loop body of `WriteToDatastore`, with the Go local variables made
explicit: `inOperation`, the running byte counter `bits` (note: the source
never resets it after a flush), the accumulator `acc`
(`queueServiceRequest.Entities`) and the calls made so far. -/
def writeLoop (env : String) (doOk : Nat → Bool) (kind : String) :
    List Entity → Bool → Nat → List Entity → List QueueServiceRequest → DispatchResult
  | [], inOperation, _bits, acc, calls =>
      if inOperation then
        match sendRequest env doOk calls.length ⟨kind, acc⟩ with
        | (.ok _, c) => ⟨calls ++ c, .ok ()⟩
        | (.error e, c) => ⟨calls ++ c, .error (LogError e)⟩
      else
        ⟨calls, .ok ()⟩
  | entity :: rest, _inOperation, bits, acc, calls =>
      let bits2 := bits + entity.length
      let megabytes := bits2 / 8000000
      if megabytes ≥ 31 then
        match sendRequest env doOk calls.length ⟨kind, acc⟩ with
        | (.ok _, c) => writeLoop env doOk kind rest false bits2 [] (calls ++ c)
        | (.error e, c) => ⟨calls ++ c, .error (LogError e)⟩
      else
        writeLoop env doOk kind rest true bits2 (acc ++ [entity]) calls

/-- `WriteToDatastore`: splits the request's entities into batches and sends
each batch via `sendRequest`, returning the first error encountered. -/
def WriteToDatastore (env : String) (doOk : Nat → Bool)
    (request : QueueServiceRequest) : DispatchResult :=
  writeLoop env doOk request.Kind request.Entities false 0 [] []

/-- The concatenation, in emission order, of the entity lists of all HTTP
calls of a run. -/
def sentEntities (r : DispatchResult) : List Entity :=
  (r.calls.map QueueServiceRequest.Entities).flatten

/-- Cumulative byte size of the entities of one transmission. -/
def batchSize (q : QueueServiceRequest) : Nat :=
  (q.Entities.map List.length).sum

/-- Cumulative byte size of a list of entities. -/
def bytesOf (l : List Entity) : Nat :=
  (l.map List.length).sum

/-- The entities the loop keeps (appends to some accumulator), given the
running byte counter `bits` on entry: an entity is dropped exactly when its
addition makes `bits / 8000000` reach 31. -/
def keptEntities : List Entity → Nat → List Entity
  | [], _ => []
  | e :: rest, bits =>
      let bits2 := bits + e.length
      if bits2 / 8000000 ≥ 31 then keptEntities rest bits2
      else e :: keptEntities rest bits2

/-- `noTrip l bits`: processing `l` starting from counter `bits` never makes
`bits / 8000000` reach 31. -/
def noTrip : List Entity → Nat → Bool
  | [], _ => true
  | e :: rest, bits =>
      decide ((bits + e.length) / 8000000 < 31) && noTrip rest (bits + e.length)

/-- A byte blob of `n` zero bytes, used for concrete inputs. -/
def blob (n : Nat) : Entity := List.replicate n 0

@[simp] theorem blob_length (n : Nat) : (blob n).length = n := by
  simp [blob]

/-! ### Basic lemmas about `sendRequest` and `writeLoop` -/

theorem sendRequest_ok {env : String} {doOk : Nat → Bool} {k : Nat}
    (data : QueueServiceRequest) (henv : env ≠ "") (hdo : doOk k = true) :
    sendRequest env doOk k data = (.ok (), [data]) := by
  simp [sendRequest, GetProjectID, henv, hdo]

theorem sendRequest_fail {env : String} {doOk : Nat → Bool} {k : Nat}
    (data : QueueServiceRequest) (henv : env ≠ "") (hdo : doOk k = false) :
    sendRequest env doOk k data = (.error (.transport k), [data]) := by
  simp [sendRequest, GetProjectID, henv, hdo, LogError]

theorem sendRequest_noenv (doOk : Nat → Bool) (k : Nat)
    (data : QueueServiceRequest) :
    sendRequest "" doOk k data =
      (.error (.notFound "env var GOOGLE_CLOUD_PROJECT must be set"), []) := by
  simp [sendRequest, GetProjectID, LogError]

/-- Step equation: an entity that trips the threshold flushes the accumulator
(successfully here) and is itself discarded; the byte counter is `bits +
e.length` — not zero — in the recursive call. -/
theorem writeLoop_trip_ok (env : String) (doOk : Nat → Bool) (kind : String)
    (e : Entity) (rest : List Entity) (inOp : Bool) (bits : Nat)
    (acc : List Entity) (calls : List QueueServiceRequest)
    (henv : env ≠ "") (hdo : doOk calls.length = true)
    (htrip : (bits + e.length) / 8000000 ≥ 31) :
    writeLoop env doOk kind (e :: rest) inOp bits acc calls =
      writeLoop env doOk kind rest false (bits + e.length) [] (calls ++ [⟨kind, acc⟩]) := by
  rw [writeLoop, if_pos htrip, sendRequest_ok _ henv hdo]

/-- Step equation: a tripping entity whose flush fails aborts the run. -/
theorem writeLoop_trip_fail (env : String) (doOk : Nat → Bool) (kind : String)
    (e : Entity) (rest : List Entity) (inOp : Bool) (bits : Nat)
    (acc : List Entity) (calls : List QueueServiceRequest)
    (henv : env ≠ "") (hdo : doOk calls.length = false)
    (htrip : (bits + e.length) / 8000000 ≥ 31) :
    writeLoop env doOk kind (e :: rest) inOp bits acc calls =
      ⟨calls ++ [⟨kind, acc⟩], .error (.transport calls.length)⟩ := by
  rw [writeLoop, if_pos htrip, sendRequest_fail _ henv hdo]; rfl

/-- Step equation: a non-tripping entity is appended to the accumulator. -/
theorem writeLoop_skip (env : String) (doOk : Nat → Bool) (kind : String)
    (e : Entity) (rest : List Entity) (inOp : Bool) (bits : Nat)
    (acc : List Entity) (calls : List QueueServiceRequest)
    (htrip : ¬ (bits + e.length) / 8000000 ≥ 31) :
    writeLoop env doOk kind (e :: rest) inOp bits acc calls =
      writeLoop env doOk kind rest true (bits + e.length) (acc ++ [e]) calls := by
  rw [writeLoop, if_neg htrip]

/-- End of loop, not in operation: nothing more is sent. -/
theorem writeLoop_nil_false (env : String) (doOk : Nat → Bool) (kind : String)
    (bits : Nat) (acc : List Entity) (calls : List QueueServiceRequest) :
    writeLoop env doOk kind [] false bits acc calls = ⟨calls, .ok ()⟩ := by
  rw [writeLoop]; rfl

/-- End of loop while in operation: the last accumulator is flushed. -/
theorem writeLoop_nil_true_ok (env : String) (doOk : Nat → Bool) (kind : String)
    (bits : Nat) (acc : List Entity) (calls : List QueueServiceRequest)
    (henv : env ≠ "") (hdo : doOk calls.length = true) :
    writeLoop env doOk kind [] true bits acc calls =
      ⟨calls ++ [⟨kind, acc⟩], .ok ()⟩ := by
  rw [writeLoop, if_pos rfl, sendRequest_ok _ henv hdo]

/-- End of loop while in operation, with the final flush failing. -/
theorem writeLoop_nil_true_fail (env : String) (doOk : Nat → Bool) (kind : String)
    (bits : Nat) (acc : List Entity) (calls : List QueueServiceRequest)
    (henv : env ≠ "") (hdo : doOk calls.length = false) :
    writeLoop env doOk kind [] true bits acc calls =
      ⟨calls ++ [⟨kind, acc⟩], .error (.transport calls.length)⟩ := by
  rw [writeLoop, if_pos rfl, sendRequest_fail _ henv hdo]; rfl

/-- The calls of a run extend the calls accumulated so far. -/
theorem writeLoop_calls_extend (env : String) (doOk : Nat → Bool) (kind : String) :
    ∀ (rest : List Entity) (inOp : Bool) (bits : Nat) (acc : List Entity)
      (calls : List QueueServiceRequest),
      ∃ t, (writeLoop env doOk kind rest inOp bits acc calls).calls = calls ++ t := by
  intro rest
  induction rest with
  | nil =>
      intro inOp bits acc calls
      cases inOp with
      | false => exact ⟨[], by simp [writeLoop]⟩
      | true =>
          simp only [writeLoop]
          rcases h : sendRequest env doOk calls.length ⟨kind, acc⟩ with ⟨res, c⟩
          cases res with
          | ok _ => exact ⟨c, by simp [h]⟩
          | error e => exact ⟨c, by simp [h]⟩
  | cons e rest ih =>
      intro inOp bits acc calls
      simp only [writeLoop]
      by_cases htrip : (bits + e.length) / 8000000 ≥ 31
      · rw [if_pos htrip]
        rcases h : sendRequest env doOk calls.length ⟨kind, acc⟩ with ⟨res, c⟩
        cases res with
        | ok _ =>
            obtain ⟨t, ht⟩ := ih false (bits + e.length) [] (calls ++ c)
            exact ⟨c ++ t, by simp [ht]⟩
        | error er => exact ⟨c, by simp⟩
      · rw [if_neg htrip]
        exact ih true (bits + e.length) (acc ++ [e]) calls

/-- In success mode (`env` set, every transport call succeeding), the run
returns ok and the entities sent are exactly the ones already recorded in
`calls`, then the accumulator, then the entities the rest of the loop keeps. -/
theorem writeLoop_ok_spec (env : String) (doOk : Nat → Bool) (kind : String)
    (henv : env ≠ "") (hdo : ∀ j, doOk j = true) :
    ∀ (rest : List Entity) (inOp : Bool) (bits : Nat) (acc : List Entity)
      (calls : List QueueServiceRequest), (inOp = false → acc = []) →
      (writeLoop env doOk kind rest inOp bits acc calls).result = .ok () ∧
      sentEntities (writeLoop env doOk kind rest inOp bits acc calls) =
        (calls.map QueueServiceRequest.Entities).flatten ++ acc ++ keptEntities rest bits := by
  intro rest
  induction rest with
  | nil =>
      intro inOp bits acc calls hia
      cases inOp with
      | false => simp [writeLoop, hia rfl, sentEntities, keptEntities]
      | true =>
          rw [writeLoop, if_pos rfl, sendRequest_ok _ henv (hdo _)]
          simp [sentEntities, keptEntities]
  | cons e rest ih =>
      intro inOp bits acc calls hia
      simp only [writeLoop]
      by_cases htrip : (bits + e.length) / 8000000 ≥ 31
      · rw [if_pos htrip, sendRequest_ok _ henv (hdo _)]
        obtain ⟨h1, h2⟩ := ih false (bits + e.length) [] (calls ++ [⟨kind, acc⟩]) (fun _ => rfl)
        refine ⟨h1, ?_⟩
        rw [h2]
        simp [keptEntities, htrip]
      · rw [if_neg htrip]
        obtain ⟨h1, h2⟩ := ih true (bits + e.length) (acc ++ [e]) calls (by simp)
        refine ⟨h1, ?_⟩
        rw [h2]
        simp [keptEntities, htrip]

/-- `keptEntities` splits over append: the second part starts from the counter
accumulated over the first (the counter is never reset, so it is the plain
byte total of the processed prefix). -/
theorem keptEntities_append (xs ys : List Entity) (b : Nat) :
    keptEntities (xs ++ ys) b = keptEntities xs b ++ keptEntities ys (b + bytesOf xs) := by
  induction xs generalizing b with
  | nil => simp [keptEntities, bytesOf]
  | cons x xs ih =>
      simp only [List.cons_append, keptEntities, List.append_eq]
      by_cases h : (b + x.length) / 8000000 ≥ 31
      · rw [if_pos h, if_pos h, ih]
        simp [bytesOf, Nat.add_assoc]
      · rw [if_neg h, if_neg h, ih]
        simp [bytesOf, Nat.add_assoc]

/-- In no-trip mode the loop appends every entity and sends once at the end. -/
theorem writeLoop_noTrip (env : String) (doOk : Nat → Bool) (kind : String)
    (henv : env ≠ "") :
    ∀ (rest : List Entity) (inOp : Bool) (bits : Nat) (acc : List Entity)
      (calls : List QueueServiceRequest), noTrip rest bits = true → rest ≠ [] →
      doOk calls.length = true →
      writeLoop env doOk kind rest inOp bits acc calls =
        ⟨calls ++ [⟨kind, acc ++ rest⟩], .ok ()⟩ := by
  intro rest
  induction rest with
  | nil => intro _ _ _ _ _ hne; exact absurd rfl hne
  | cons e rest ih =>
      intro inOp bits acc calls hnt _ hdo
      simp only [noTrip, Bool.and_eq_true, decide_eq_true_eq] at hnt
      obtain ⟨hlt, hnt'⟩ := hnt
      rw [writeLoop, if_neg (by omega)]
      cases rest with
      | nil =>
          rw [writeLoop, if_pos rfl, sendRequest_ok _ henv hdo]
      | cons f rest' =>
          rw [ih true (bits + e.length) (acc ++ [e]) calls hnt' (by simp) hdo]
          simp

/-! ### C6 — empty input: no transmission, success -/

/-- C6: invoked on an empty entity sequence, `WriteToDatastore` performs no
transmission at all (no HTTP call, `sendRequest` never reached, whatever the
environment and the transport behaviour) and returns success. -/
theorem c6_empty_input_no_transmission (env : String) (doOk : Nat → Bool)
    (kind : String) :
    WriteToDatastore env doOk ⟨kind, []⟩ = ⟨[], .ok ()⟩ := rfl

/-! ### C2 — what is sent is the input minus the threshold-tripping entities -/

/-- C2: for every non-empty input on which all transmissions succeed, the
concatenation of the entity lists of all emitted Transmission Units, in
emission order, is exactly the input sequence minus the entities that tripped
the flush threshold (`keptEntities`), and the run succeeds. -/
theorem c2_sent_is_kept (env : String) (doOk : Nat → Bool)
    (req : QueueServiceRequest) (henv : env ≠ "")
    (hdo : ∀ j, doOk j = true) (_hne : req.Entities ≠ []) :
    sentEntities (WriteToDatastore env doOk req) = keptEntities req.Entities 0 ∧
    (WriteToDatastore env doOk req).result = .ok () := by
  obtain ⟨h1, h2⟩ := writeLoop_ok_spec env doOk req.Kind henv hdo
    req.Entities false 0 [] [] (fun _ => rfl)

  exact ⟨by simpa [WriteToDatastore] using h2, by simpa [WriteToDatastore] using h1⟩

/-- Witness for C2 at a concrete input. -/
theorem c2_sent_is_kept_witness :
    sentEntities (WriteToDatastore "p" (fun _ => true) ⟨"k", [[1], [2, 3]]⟩) =
      keptEntities [[1], [2, 3]] 0 ∧
    (WriteToDatastore "p" (fun _ => true) ⟨"k", [[1], [2, 3]]⟩).result = .ok () :=
  c2_sent_is_kept "p" (fun _ => true) ⟨"k", [[1], [2, 3]]⟩ (by decide)
    (fun _ => rfl) (by simp)

/-! ### C7 — below-threshold inputs go out as a single full transmission -/

/-- C7: if the running counter never makes `bits / 8000000` reach 31 at any
step, a non-empty input is sent as exactly one transmission holding all
entities in input order. -/
theorem c7_single_transmission (env : String) (doOk : Nat → Bool)
    (kind : String) (entities : List Entity) (henv : env ≠ "")
    (hdo : doOk 0 = true) (hne : entities ≠ [])
    (hnt : noTrip entities 0 = true) :
    WriteToDatastore env doOk ⟨kind, entities⟩ = ⟨[⟨kind, entities⟩], .ok ()⟩ := by
  have h := writeLoop_noTrip env doOk kind henv entities false 0 [] [] hnt hne hdo
  simpa [WriteToDatastore] using h

/-- Witness for C7 at a concrete input. -/
theorem c7_single_transmission_witness :
    WriteToDatastore "p" (fun _ => true) ⟨"k", [[1], [2, 3]]⟩ =
      ⟨[⟨"k", [[1], [2, 3]]⟩], .ok ()⟩ :=
  c7_single_transmission "p" (fun _ => true) "k" [[1], [2, 3]] (by decide) rfl
    (by simp) (by decide)

/-! ### C4 — the entity that trips the threshold is dropped -/

/-- C4: an entity whose addition makes the running counter reach the
threshold is in no transmission at all: on a successful run over
`pre ++ e :: post` where `e` trips (the counter on reaching `e` is the byte
total of `pre`, since the counter is never reset), the entities sent are
those kept from `pre` followed by those kept from `post` — `e` itself is
neither in the batch flushed at that moment nor carried into the next
accumulator. -/
theorem c4_tripping_entity_dropped (env : String) (doOk : Nat → Bool)
    (kind : String) (pre post : List Entity) (e : Entity) (henv : env ≠ "")
    (hdo : ∀ j, doOk j = true)
    (htrip : 31 ≤ (bytesOf pre + e.length) / 8000000) :
    sentEntities (WriteToDatastore env doOk ⟨kind, pre ++ e :: post⟩) =
      keptEntities pre 0 ++ keptEntities post (bytesOf pre + e.length) := by
  obtain ⟨-, h2⟩ := writeLoop_ok_spec env doOk kind henv hdo
    (pre ++ e :: post) false 0 [] [] (fun _ => rfl)
  simp only [WriteToDatastore]
  rw [h2, keptEntities_append]
  simp [keptEntities, htrip]

/-- Witness for C4 at a concrete input: a 248 MB blob trips immediately and a
following 1-byte entity is dropped as well (the counter is never reset). -/
theorem c4_tripping_entity_dropped_witness :
    sentEntities (WriteToDatastore "p" (fun _ => true)
        ⟨"k", [] ++ blob 248000000 :: [[7]]⟩) =
      keptEntities [] 0 ++ keptEntities [[7]] (bytesOf [] + (blob 248000000).length) :=
  c4_tripping_entity_dropped "p" (fun _ => true) "k" [] [[7]] (blob 248000000)
    (by decide) (fun _ => rfl) (by rw [blob_length]; norm_num [bytesOf])

/-- Every HTTP call performed by `sendRequest` carries its payload. -/
theorem sendRequest_calls_eq (env : String) (doOk : Nat → Bool) (k : Nat)
    (data : QueueServiceRequest) :
    ∀ q ∈ (sendRequest env doOk k data).2, q = data := by
  intro q hq
  by_cases henv : env = ""
  · subst henv; simp [sendRequest, GetProjectID] at hq
  · by_cases hdo : doOk k = true
    · rw [sendRequest_ok data henv hdo] at hq; simpa using hq
    · rw [sendRequest_fail data henv (by simpa using hdo)] at hq; simpa using hq

@[simp] theorem batchSize_append_one (acc : List Entity) (e : Entity)
    (kind : String) :
    batchSize ⟨kind, acc ++ [e]⟩ = batchSize ⟨kind, acc⟩ + e.length := by
  simp [batchSize]

/-- Size invariant of the loop: every transmission carries strictly less than
248 000 000 bytes of entities (31 × 8 000 000, the flush threshold of the
literal arithmetic). -/
theorem writeLoop_size_bound (env : String) (doOk : Nat → Bool) (kind : String) :
    ∀ (rest : List Entity) (inOp : Bool) (bits : Nat) (acc : List Entity)
      (calls : List QueueServiceRequest),
      batchSize ⟨kind, acc⟩ ≤ bits → batchSize ⟨kind, acc⟩ < 248000000 →
      (∀ q ∈ calls, batchSize q < 248000000) →
      ∀ q ∈ (writeLoop env doOk kind rest inOp bits acc calls).calls,
        batchSize q < 248000000 := by
  intro rest
  induction rest with
  | nil =>
      intro inOp bits acc calls _hle hacc hcalls q hq
      cases inOp with
      | false => simp only [writeLoop] at hq; simp at hq; exact hcalls q hq
      | true =>
          simp only [writeLoop] at hq
          rcases hsend : sendRequest env doOk calls.length ⟨kind, acc⟩ with ⟨res, c⟩
          have hc : ∀ q ∈ c, q = QueueServiceRequest.mk kind acc := by
            intro q hqc
            have := sendRequest_calls_eq env doOk calls.length ⟨kind, acc⟩ q
            rw [hsend] at this
            exact this hqc
          rw [hsend] at hq
          cases res with
          | ok _ =>
              rcases List.mem_append.mp hq with hq | hq
              · exact hcalls q hq
              · rw [hc q hq]; exact hacc
          | error e =>
              rcases List.mem_append.mp hq with hq | hq
              · exact hcalls q hq
              · rw [hc q hq]; exact hacc
  | cons e rest ih =>
      intro inOp bits acc calls hle hacc hcalls q hq
      simp only [writeLoop] at hq
      by_cases htrip : (bits + e.length) / 8000000 ≥ 31
      · rw [if_pos htrip] at hq
        rcases hsend : sendRequest env doOk calls.length ⟨kind, acc⟩ with ⟨res, c⟩
        have hc : ∀ q ∈ c, q = QueueServiceRequest.mk kind acc := by
          intro q hqc
          have := sendRequest_calls_eq env doOk calls.length ⟨kind, acc⟩ q
          rw [hsend] at this
          exact this hqc
        have hcalls' : ∀ q ∈ calls ++ c, batchSize q < 248000000 := by
          intro q hq
          rcases List.mem_append.mp hq with hq | hq
          · exact hcalls q hq
          · rw [hc q hq]; exact hacc
        rw [hsend] at hq
        cases res with
        | ok _ =>
            exact ih false (bits + e.length) [] (calls ++ c)
              (by simp [batchSize]) (by simp [batchSize]) hcalls' q hq
        | error er => exact hcalls' q hq
      · rw [if_neg htrip] at hq
        have hbound : bits + e.length < 248000000 := by omega
        exact ih true (bits + e.length) (acc ++ [e]) calls
          (by rw [batchSize_append_one]; omega)
          (by rw [batchSize_append_one]; omega) hcalls q hq

/-! ### C3 — per-transmission size ceiling -/

/-- C3 (counterexample): a single 40 MB entity never trips the
`bits / 8000000 ≥ 31` test, so it goes out in one transmission whose
cumulative size, 40 000 000 bytes, is far above the claimed 31 MB ceiling. -/
theorem c3_ceiling_counterexample :
    ¬ (∀ q ∈ (WriteToDatastore "p" (fun _ => true) ⟨"k", [blob 40000000]⟩).calls,
        batchSize q ≤ 31000000) := by
  have hnt : noTrip [blob 40000000] 0 = true := by
    simp only [noTrip, blob_length, Bool.and_true, decide_eq_true_eq]
    norm_num
  have hrun : WriteToDatastore "p" (fun _ => true) ⟨"k", [blob 40000000]⟩ =
      ⟨[⟨"k", [blob 40000000]⟩], .ok ()⟩ := by
    have h := writeLoop_noTrip "p" (fun _ => true) "k" (by decide)
      [blob 40000000] false 0 [] [] hnt (by simp) rfl
    simpa [WriteToDatastore] using h
  intro h
  have hb := h ⟨"k", [blob 40000000]⟩ (by rw [hrun]; simp)
  have hsz : batchSize ⟨"k", [blob 40000000]⟩ = 40000000 := by
    simp only [batchSize, List.map_cons, List.map_nil, blob_length,
      List.sum_cons, List.sum_nil, Nat.add_zero]
  omega

/-- C3 (amended): every outbound Transmission Unit carries strictly less than
248 000 000 bytes of entities — the actual ceiling enforced by the literal
`bits / 8000000 ≥ 31` test (not 31 MB). -/
theorem c3_amended_size_bound (env : String) (doOk : Nat → Bool)
    (req : QueueServiceRequest) :
    ∀ q ∈ (WriteToDatastore env doOk req).calls, batchSize q < 248000000 := by
  intro q hq
  exact writeLoop_size_bound env doOk req.Kind req.Entities false 0 [] []
    (by simp [batchSize]) (by simp [batchSize]) (by simp) q hq

/-- Witness for C3 (amended) at a concrete input. -/
theorem c3_amended_size_bound_witness :
    batchSize ⟨"k", [[5]]⟩ < 248000000 :=
  c3_amended_size_bound "p" (fun _ => true) ⟨"k", [[5]]⟩ ⟨"k", [[5]]⟩ (by decide)

/-! ### C1 — the running counter is never reset after a flush -/

/-- C1: the code never resets `bits` after a mid-loop flush (only the
accumulator is cleared).  On `[248 MB blob, [5]]` the first entity trips the
threshold and flushes the (empty) accumulator; were the counter restarted
from zero, the 1-byte entity would be accumulated and sent in a final
transmission.  Instead the stale counter trips again: a second empty
transmission goes out and nothing at all is ever sent. -/
theorem c1_counter_never_reset :
    WriteToDatastore "p" (fun _ => true) ⟨"k", [blob 248000000, [5]]⟩ =
      ⟨[⟨"k", []⟩, ⟨"k", []⟩], .ok ()⟩ ∧
    sentEntities (WriteToDatastore "p" (fun _ => true)
        ⟨"k", [blob 248000000, [5]]⟩) = [] := by
  have hrun : WriteToDatastore "p" (fun _ => true) ⟨"k", [blob 248000000, [5]]⟩ =
      ⟨[⟨"k", []⟩, ⟨"k", []⟩], .ok ()⟩ := by
    show writeLoop "p" (fun _ => true) "k" [blob 248000000, [5]] false 0 [] [] = _
    rw [writeLoop_trip_ok "p" (fun _ => true) "k" (blob 248000000) [[5]] false 0 [] []
        (by decide) rfl (by rw [blob_length])]
    simp only [List.nil_append]
    rw [writeLoop_trip_ok "p" (fun _ => true) "k" [5] [] false
        (0 + (blob 248000000).length) [] [⟨"k", []⟩]
        (by decide) rfl (by rw [blob_length]; decide)]
    rw [writeLoop_nil_false]
    rfl
  exact ⟨hrun, by rw [hrun]; simp [sentEntities]⟩

/-! ### C8 — a single over-ceiling entity -/

/-- C8 (counterexample): a single entity of 248 000 000 bytes trips the flush
test on the very first iteration, so the *empty* accumulator is flushed (one
zero-item transmission) and the entity itself is dropped — it is not forwarded
as a one-item transmission. -/
theorem c8_oversize_counterexample :
    WriteToDatastore "p" (fun _ => true) ⟨"k", [blob 248000000]⟩ =
      ⟨[⟨"k", []⟩], .ok ()⟩ ∧
    blob 248000000 ∉
      sentEntities (WriteToDatastore "p" (fun _ => true) ⟨"k", [blob 248000000]⟩) := by
  have hrun : WriteToDatastore "p" (fun _ => true) ⟨"k", [blob 248000000]⟩ =
      ⟨[⟨"k", []⟩], .ok ()⟩ := by
    show writeLoop "p" (fun _ => true) "k" [blob 248000000] false 0 [] [] = _
    rw [writeLoop_trip_ok "p" (fun _ => true) "k" (blob 248000000) [] false 0 [] []
        (by decide) rfl (by rw [blob_length])]
    rw [writeLoop_nil_false]
    rfl
  exact ⟨hrun, by rw [hrun]; simp [sentEntities]⟩

/-- C8 (amended): a single entity whose size exceeds the 31 MB ceiling but
stays below 248 000 000 bytes is still forwarded as a one-item transmission —
no individual-entity-size validation exists; only an entity of at least
248 000 000 bytes trips the flush and is dropped. -/
theorem c8_amended_oversize_forwarded (env : String) (doOk : Nat → Bool)
    (kind : String) (e : Entity) (henv : env ≠ "") (hdo : doOk 0 = true)
    (_hbig : 31000000 < e.length) (hsmall : e.length < 248000000) :
    WriteToDatastore env doOk ⟨kind, [e]⟩ = ⟨[⟨kind, [e]⟩], .ok ()⟩ := by
  have hnt : noTrip [e] 0 = true := by
    simp only [noTrip, Bool.and_true, decide_eq_true_eq]
    omega
  have h := writeLoop_noTrip env doOk kind henv [e] false 0 [] [] hnt (by simp) hdo
  simpa [WriteToDatastore] using h

/-- Witness for C8 (amended) at a concrete input: a 31 000 001-byte entity. -/
theorem c8_amended_oversize_forwarded_witness :
    WriteToDatastore "p" (fun _ => true) ⟨"k", [blob 31000001]⟩ =
      ⟨[⟨"k", [blob 31000001]⟩], .ok ()⟩ :=
  c8_amended_oversize_forwarded "p" (fun _ => true) "k" (blob 31000001)
    (by decide) rfl (by rw [blob_length]; norm_num) (by rw [blob_length]; norm_num)

/-- With `GOOGLE_CLOUD_PROJECT` unset, the first `sendRequest` reached
aborts the loop with the NotFound error and no HTTP call is ever made. -/
theorem writeLoop_noenv (doOk : Nat → Bool) (kind : String) :
    ∀ (rest : List Entity) (inOp : Bool) (bits : Nat) (acc : List Entity)
      (calls : List QueueServiceRequest), rest ≠ [] ∨ inOp = true →
      writeLoop "" doOk kind rest inOp bits acc calls =
        ⟨calls, .error (.notFound "env var GOOGLE_CLOUD_PROJECT must be set")⟩ := by
  intro rest
  induction rest with
  | nil =>
      intro inOp bits acc calls h
      rcases h with h | h
      · exact absurd rfl h
      · subst h
        rw [writeLoop, if_pos rfl, sendRequest_noenv]
        simp [LogError]
  | cons e rest ih =>
      intro inOp bits acc calls _
      by_cases htrip : (bits + e.length) / 8000000 ≥ 31
      · rw [writeLoop, if_pos htrip, sendRequest_noenv]
        simp [LogError]
      · rw [writeLoop, if_neg htrip]
        exact ih true (bits + e.length) (acc ++ [e]) calls (Or.inr rfl)

/-! ### C9 — missing project id aborts before any transmission -/

/-- C9: with `GOOGLE_CLOUD_PROJECT` unset, `GetProjectID` returns the
NotFound error, `sendRequest` returns it without performing any outbound
HTTP call, and `WriteToDatastore` (on any non-empty input) propagates it
having performed no HTTP call at all. -/
theorem c9_missing_project_id_aborts (doOk : Nat → Bool) (k : Nat)
    (data req : QueueServiceRequest) (hne : req.Entities ≠ []) :
    GetProjectID "" =
      .error (.notFound "env var GOOGLE_CLOUD_PROJECT must be set") ∧
    sendRequest "" doOk k data =
      (.error (.notFound "env var GOOGLE_CLOUD_PROJECT must be set"), []) ∧
    WriteToDatastore "" doOk req =
      ⟨[], .error (.notFound "env var GOOGLE_CLOUD_PROJECT must be set")⟩ := by
  refine ⟨rfl, sendRequest_noenv doOk k data, ?_⟩
  have h := writeLoop_noenv doOk req.Kind req.Entities false 0 [] [] (Or.inl hne)
  simpa [WriteToDatastore] using h

/-- Witness for C9 at a concrete input. -/
theorem c9_missing_project_id_aborts_witness :
    GetProjectID "" =
      .error (.notFound "env var GOOGLE_CLOUD_PROJECT must be set") ∧
    sendRequest "" (fun _ => true) 0 ⟨"k", []⟩ =
      (.error (.notFound "env var GOOGLE_CLOUD_PROJECT must be set"), []) ∧
    WriteToDatastore "" (fun _ => true) ⟨"k", [[5]]⟩ =
      ⟨[], .error (.notFound "env var GOOGLE_CLOUD_PROJECT must be set")⟩ :=
  c9_missing_project_id_aborts (fun _ => true) 0 ⟨"k", []⟩ ⟨"k", [[5]]⟩ (by simp)

/-! ### C5 — a transport failure aborts the dispatch immediately -/

/-- Comparing the run whose transport first fails on call `k` with the
all-success run: if the failing call is reached, the attempted calls are
exactly the first `k + 1` of the all-success run's calls (the earlier ones
sent once each, in order, plus the failing attempt) and the transport error
is returned; if the all-success run needs at most `k` calls, the failure is
never reached and the runs coincide. -/
theorem writeLoop_first_failure (env : String) (doOk : Nat → Bool)
    (kind : String) (k : Nat) (henv : env ≠ "")
    (hlt : ∀ j, j < k → doOk j = true) (hk : doOk k = false) :
    ∀ (rest : List Entity) (inOp : Bool) (bits : Nat) (acc : List Entity)
      (calls : List QueueServiceRequest), calls.length ≤ k →
      (k + 1 ≤ (writeLoop env (fun _ => true) kind rest inOp bits acc calls).calls.length →
        (writeLoop env doOk kind rest inOp bits acc calls).calls =
          (writeLoop env (fun _ => true) kind rest inOp bits acc calls).calls.take (k + 1) ∧
        (writeLoop env doOk kind rest inOp bits acc calls).result =
          .error (.transport k)) ∧
      ((writeLoop env (fun _ => true) kind rest inOp bits acc calls).calls.length ≤ k →
        writeLoop env doOk kind rest inOp bits acc calls =
          writeLoop env (fun _ => true) kind rest inOp bits acc calls) := by
  intro rest
  induction rest with
  | nil =>
      intro inOp bits acc calls hlen
      cases inOp with
      | false =>
          rw [writeLoop_nil_false, writeLoop_nil_false]
          exact ⟨fun habs => absurd habs (by simp; omega), fun _ => rfl⟩
      | true =>
          by_cases hck : calls.length = k
          · rw [writeLoop_nil_true_ok env (fun _ => true) kind bits acc calls henv rfl,
                writeLoop_nil_true_fail env doOk kind bits acc calls henv
                  (by rw [hck]; exact hk)]
            constructor
            · intro _
              refine ⟨(List.take_of_length_le (by simp; omega)).symm, ?_⟩
              rw [hck]
            · intro habs
              simp at habs; omega
          · have hlt' : calls.length < k := by omega
            rw [writeLoop_nil_true_ok env (fun _ => true) kind bits acc calls henv rfl,
                writeLoop_nil_true_ok env doOk kind bits acc calls henv (hlt _ hlt')]
            exact ⟨fun habs => absurd habs (by simp; omega), fun _ => rfl⟩
  | cons e rest ih =>
      intro inOp bits acc calls hlen
      by_cases htrip : (bits + e.length) / 8000000 ≥ 31
      · by_cases hck : calls.length = k
        · rw [writeLoop_trip_fail env doOk kind e rest inOp bits acc calls henv
                (by rw [hck]; exact hk) htrip,
              writeLoop_trip_ok env (fun _ => true) kind e rest inOp bits acc calls
                henv rfl htrip]
          obtain ⟨t, ht⟩ := writeLoop_calls_extend env (fun _ => true) kind rest
            false (bits + e.length) [] (calls ++ [⟨kind, acc⟩])
          constructor
          · intro _
            refine ⟨?_, by rw [hck]⟩
            rw [ht, List.take_append_eq_append_take]
            rw [List.take_of_length_le (by simp; omega)]
            have : k + 1 - (calls ++ [QueueServiceRequest.mk kind acc]).length = 0 := by
              simp; omega
            rw [this, List.take_zero, List.append_nil]
          · intro habs
            rw [ht] at habs
            simp at habs; omega
        · have hlt' : calls.length < k := by omega
          rw [writeLoop_trip_ok env doOk kind e rest inOp bits acc calls henv
                (hlt _ hlt') htrip,
              writeLoop_trip_ok env (fun _ => true) kind e rest inOp bits acc calls
                henv rfl htrip]
          exact ih false (bits + e.length) [] (calls ++ [⟨kind, acc⟩]) (by simp; omega)
      · rw [writeLoop_skip env doOk kind e rest inOp bits acc calls htrip,
            writeLoop_skip env (fun _ => true) kind e rest inOp bits acc calls htrip]
        exact ih true (bits + e.length) (acc ++ [e]) calls hlen

/-- C5: with the transport failing for the first time on its `k`-th call
(0-based), a dispatch that reaches that call stops there: the calls attempted
are exactly the first `k + 1` calls of the corresponding all-success run
(each earlier transmission sent exactly once, in order), the transport error
is returned to the caller, and no later transmission is attempted; a dispatch
that never reaches call `k` is unaffected.  With `k = 1` this is the spec's
scenario: the first transmission's entities go out exactly once, the failure
on the second is returned, and no third transmission is attempted. -/
theorem c5_transport_failure_aborts (env : String) (doOk : Nat → Bool)
    (req : QueueServiceRequest) (k : Nat) (henv : env ≠ "")
    (hlt : ∀ j, j < k → doOk j = true) (hk : doOk k = false) :
    (k + 1 ≤ (WriteToDatastore env (fun _ => true) req).calls.length →
      (WriteToDatastore env doOk req).calls =
        (WriteToDatastore env (fun _ => true) req).calls.take (k + 1) ∧
      (WriteToDatastore env doOk req).result = .error (.transport k)) ∧
    ((WriteToDatastore env (fun _ => true) req).calls.length ≤ k →
      WriteToDatastore env doOk req = WriteToDatastore env (fun _ => true) req) := by
  have h := writeLoop_first_failure env doOk req.Kind k henv hlt hk
    req.Entities false 0 [] [] (by simp)
  simpa [WriteToDatastore] using h

/-- Witness for C5: failure injected on the second transmission (`k = 1`). -/
theorem c5_transport_failure_aborts_witness :
    (1 + 1 ≤ (WriteToDatastore "p" (fun _ => true)
        ⟨"k", [blob 248000000, blob 248000000]⟩).calls.length →
      (WriteToDatastore "p" (fun j => decide (j ≠ 1))
          ⟨"k", [blob 248000000, blob 248000000]⟩).calls =
        (WriteToDatastore "p" (fun _ => true)
          ⟨"k", [blob 248000000, blob 248000000]⟩).calls.take (1 + 1) ∧
      (WriteToDatastore "p" (fun j => decide (j ≠ 1))
          ⟨"k", [blob 248000000, blob 248000000]⟩).result =
        .error (.transport 1)) ∧
    ((WriteToDatastore "p" (fun _ => true)
        ⟨"k", [blob 248000000, blob 248000000]⟩).calls.length ≤ 1 →
      WriteToDatastore "p" (fun j => decide (j ≠ 1))
          ⟨"k", [blob 248000000, blob 248000000]⟩ =
        WriteToDatastore "p" (fun _ => true)
          ⟨"k", [blob 248000000, blob 248000000]⟩) :=
  c5_transport_failure_aborts "p" (fun j => decide (j ≠ 1))
    ⟨"k", [blob 248000000, blob 248000000]⟩ 1 (by decide)
    (fun j hj => by
      have h0 : j = 0 := by omega
      subst h0; rfl)
    rfl

/-! ### Base64 URL encoding (`Encrypt` / `Decrypt`)

`Encrypt` is `base64.URLEncoding.EncodeToString([]byte(data))` and `Decrypt`
is `base64.URLEncoding.DecodeString(data)`: padded base64 over the URL-safe
alphabet.  A Go string is a byte sequence, modelled as a `List Nat` of byte
values; the encoded form is a `List Char` over the alphabet plus padding. -/

/-- The URL-safe base64 alphabet (RFC 4648 §5), in index order. -/
def b64Alphabet : List Char :=
  ['A', 'B', 'C', 'D', 'E', 'F', 'G', 'H', 'I', 'J', 'K', 'L', 'M',
   'N', 'O', 'P', 'Q', 'R', 'S', 'T', 'U', 'V', 'W', 'X', 'Y', 'Z',
   'a', 'b', 'c', 'd', 'e', 'f', 'g', 'h', 'i', 'j', 'k', 'l', 'm',
   'n', 'o', 'p', 'q', 'r', 's', 't', 'u', 'v', 'w', 'x', 'y', 'z',
   '0', '1', '2', '3', '4', '5', '6', '7', '8', '9', '-', '_']

/-- The character encoding a six-bit group. -/
def b64Char (n : Nat) : Char := b64Alphabet.getD n 'A'

/-- Position of a character in the alphabet (`none` for '=', or any other
character outside the alphabet). -/
def b64IndexAux : List Char → Nat → Char → Option Nat
  | [], _, _ => none
  | a :: rest, i, c => if a = c then some i else b64IndexAux rest (i + 1) c

def b64Index (c : Char) : Option Nat := b64IndexAux b64Alphabet 0 c

/-- Encoding: three bytes become four alphabet characters; a final group of
one or two bytes is padded with `'='` as in Go's `StdPadding`. -/
def b64EncodeBytes : List Nat → List Char
  | [] => []
  | [b0] =>
      [b64Char (b0 / 4), b64Char (b0 % 4 * 16), '=', '=']
  | [b0, b1] =>
      [b64Char (b0 / 4), b64Char (b0 % 4 * 16 + b1 / 16),
       b64Char (b1 % 16 * 4), '=']
  | b0 :: b1 :: b2 :: rest =>
      b64Char (b0 / 4) :: b64Char (b0 % 4 * 16 + b1 / 16) ::
      b64Char (b1 % 16 * 4 + b2 / 64) :: b64Char (b2 % 64) ::
      b64EncodeBytes rest

/-- Decoding: four characters at a time, with `'='` padding allowed only at
the very end; like Go's (non-strict) decoder, unused trailing bits of the
last group are ignored. Any other shape is an error (`none`). -/
def b64DecodeBytes : List Char → Option (List Nat)
  | [] => some []
  | c0 :: c1 :: c2 :: c3 :: rest => do
      let s0 ← b64Index c0
      let s1 ← b64Index c1
      if c2 = '=' then
        if c3 = '=' ∧ rest = [] then some [s0 * 4 + s1 / 16] else none
      else do
        let s2 ← b64Index c2
        if c3 = '=' then
          if rest = [] then some [s0 * 4 + s1 / 16, s1 % 16 * 16 + s2 / 4]
          else none
        else do
          let s3 ← b64Index c3
          let tail ← b64DecodeBytes rest
          some ((s0 * 4 + s1 / 16) :: (s1 % 16 * 16 + s2 / 4) ::
            (s2 % 4 * 64 + s3) :: tail)
  | _ => none

/-- `Encrypt`: base64-URL-encode the bytes of a string. -/
def Encrypt (data : List Nat) : List Char := b64EncodeBytes data

/-- `Decrypt`: base64-URL-decode back to the bytes of a string. -/
def Decrypt (data : List Char) : Option (List Nat) := b64DecodeBytes data

theorem b64Index_b64Char_fin : ∀ n : Fin 64, b64Index (b64Char n.val) = some n.val := by
  decide

theorem b64Char_ne_pad_fin : ∀ n : Fin 64, b64Char n.val ≠ '=' := by
  decide

theorem b64Index_b64Char {n : Nat} (h : n < 64) : b64Index (b64Char n) = some n :=
  b64Index_b64Char_fin ⟨n, h⟩

theorem b64Char_ne_pad {n : Nat} (h : n < 64) : b64Char n ≠ '=' :=
  b64Char_ne_pad_fin ⟨n, h⟩

/-- Decoding inverts encoding, chunk by chunk, for byte-valued input. -/
theorem b64_decode_encode :
    ∀ (s : List Nat), (∀ b ∈ s, b < 256) →
      b64DecodeBytes (b64EncodeBytes s) = some s
  | [], _ => rfl
  | [b0], h => by
      have hb0 : b0 < 256 := h b0 (by simp)
      have h1 : b0 / 4 < 64 := by omega
      have h2 : b0 % 4 * 16 < 64 := by omega
      simp [b64EncodeBytes, b64DecodeBytes, b64Index_b64Char h1,
        b64Index_b64Char h2]
      omega
  | [b0, b1], h => by
      have hb0 : b0 < 256 := h b0 (by simp)
      have hb1 : b1 < 256 := h b1 (by simp)
      have h1 : b0 / 4 < 64 := by omega
      have h2 : b0 % 4 * 16 + b1 / 16 < 64 := by omega
      have h3 : b1 % 16 * 4 < 64 := by omega
      simp [b64EncodeBytes, b64DecodeBytes, b64Index_b64Char h1,
        b64Index_b64Char h2, b64Index_b64Char h3, b64Char_ne_pad h3]
      omega
  | b0 :: b1 :: b2 :: rest, h => by
      have hb0 : b0 < 256 := h b0 (by simp)
      have hb1 : b1 < 256 := h b1 (by simp)
      have hb2 : b2 < 256 := h b2 (by simp)
      have h1 : b0 / 4 < 64 := by omega
      have h2 : b0 % 4 * 16 + b1 / 16 < 64 := by omega
      have h3 : b1 % 16 * 4 + b2 / 64 < 64 := by omega
      have h4 : b2 % 64 < 64 := by omega
      have ihtail := b64_decode_encode rest (fun b hb => h b (by simp [hb]))
      simp [b64EncodeBytes, b64DecodeBytes, b64Index_b64Char h1,
        b64Index_b64Char h2, b64Index_b64Char h3, b64Index_b64Char h4,
        b64Char_ne_pad h3, b64Char_ne_pad h4, ihtail]
      omega

/-! ### C10 — `Decrypt ∘ Encrypt` is the identity -/

/-- C10: for every string (byte sequence), `Decrypt (Encrypt s)` succeeds and
returns `s`: the base64 URL-encoding pack/unpack pair round-trips at the
library's public interface. -/
theorem c10_encrypt_decrypt_roundtrip (s : List Nat) (h : ∀ b ∈ s, b < 256) :
    Decrypt (Encrypt s) = some s :=
  b64_decode_encode s h

/-- Witness for C10 at a concrete input (the bytes of `"Hi"`). -/
theorem c10_encrypt_decrypt_roundtrip_witness :
    Decrypt (Encrypt [72, 105]) = some [72, 105] :=
  c10_encrypt_decrypt_roundtrip [72, 105] (by decide)

end Celbux
